import Mathlib

/-!
Shallow embedding of the core of `dbb_buffmngrs_endpoint` (an endpoint-site
file intake pipeline): the `Status` enumeration, the catalog data model
(`files` and `events` tables), the Finder's duplicate detection and catalog
insert, the Ingester's `_grab` selection and reap phase, the manifest-log
date window, and the relocation actions (`Move`, `Delete`) over an explicit
filesystem model.

Conventions:
* machine strings stay `String`; timestamps are `Nat` ticks; SQL `NULL` is
  `Option`; filesystem paths are absolute component lists (`List String`,
  root = `[]`).
* fallible operations return `Option`/flagged results; caught exceptions
  are modelled as the handler the source installs.
-/

/-! ### `status.py` — the Status enumeration

Transcribed from `python/lsst/dbb/buffmngrs/endpoint/status.py`, which
declares exactly six members. -/

inductive Status where
  | UNTRIED
  | REISSUE
  | PENDING
  | SUCCESS
  | FAILURE
  | UNKNOWN
deriving DecidableEq, Repr

/-- The wire value (`enum` member value) of each `Status` member, exactly as
written in `status.py`. -/
def Status.value : Status → String
  | .UNTRIED => "NEW"
  | .REISSUE => "RERUN"
  | .PENDING => "PENDING"
  | .SUCCESS => "SUCCESS"
  | .FAILURE => "FAILURE"
  | .UNKNOWN => "UNKNOWN"

/-- All members of the `Status` enumeration, in declaration order. -/
def Status.members : List Status :=
  [.UNTRIED, .REISSUE, .PENDING, .SUCCESS, .FAILURE, .UNKNOWN]

/-- Attribute lookup on the `Status` class (`getattr(Status, name)`):
`none` models the `AttributeError` Python raises for a missing member. -/
def Status.lookupMember (name : String) : Option Status :=
  match name with
  | "UNTRIED" => some .UNTRIED
  | "REISSUE" => some .REISSUE
  | "PENDING" => some .PENDING
  | "SUCCESS" => some .SUCCESS
  | "FAILURE" => some .FAILURE
  | "UNKNOWN" => some .UNKNOWN
  | _ => none

/-! ### `finder/finder.py` — `parse_rsync_logs` date window

The strategy computes `dates = [end - timedelta(days=n) for n in
range(timespan + 1)]` where `end` is today's date or the `isodate`
override.  Days are modelled as integers (one unit = one day). -/

/-- The list of days whose `YYYYMMDD` subdirectories `parse_rsync_logs`
visits, from the source: `[end - timedelta(days=n) for n in
range(timespan+1)]`. -/
def visitedDays (endDay : Int) (timespan : Nat) : List Int :=
  (List.range (timespan + 1)).map (fun n : Nat => endDay - (n : Int))

/-- The day window the claim describes: the inclusive interval
`[D - p, D + f]` for past-days `p` and future-days `f`.  Written from the
spec's words, for comparison with `visitedDays`. -/
def claimedDays (d : Int) (p f : Nat) : List Int :=
  (List.range (p + f + 1)).map (fun n : Nat => d - (p : Int) + (n : Int))

/-! ### `declaratives.py` — the `files` and `events` tables

`file_creator` declares
`id PK, relpath NOT NULL, filename NOT NULL UNIQUE, checksum NOT NULL
UNIQUE, size_bytes BigInteger NOT NULL, added_on NOT NULL default now`;
`event_creator` declares
`ingest_ver NULL, start_time PK, duration Interval NULL, err_message NULL,
status Enum(Status), files_id FK PK`.
A row's nullable columns are `Option`; `size_bytes` is `Option` on the
Python side (an ORM object may be built without it) and the NOT NULL
constraint is checked by `fileRowOk`. -/

structure FileRec where
  id : Nat
  relpath : String
  filename : String
  checksum : String
  size_bytes : Option Nat
deriving DecidableEq, Repr

structure EventRec where
  files_id : Nat
  start_time : Nat
  status : Status
  duration : Option Nat
  ingest_ver : Option String
  err_message : Option String
deriving DecidableEq, Repr

/-- The constraints the `files` table enforces on an incoming row, against
the already-committed catalog: `size_bytes NOT NULL` plus the `UNIQUE`
constraints on `filename` and `checksum`. -/
def fileRowOk (catalog : List FileRec) (r : FileRec) : Bool :=
  r.size_bytes.isSome &&
    catalog.all (fun c => c.filename ≠ r.filename && c.checksum ≠ r.checksum)

/-! ### `finder/finder.py` — duplicate detection and catalog insert

`Finder.run` computes the checksum and basename of a candidate, then runs

    records = session.query(File).
        filter(File.checksum == checksum, File.filename == filename).all()

and marks the candidate a duplicate (alternative action) iff `records` is
non-empty.  On the novel branch it builds
`File(relpath=…, filename=…, checksum=…)` — passing no `size_bytes` — adds
it and commits. -/

/-- The Finder's duplicate query: rows matching the candidate's checksum
AND filename (the two `filter` arguments are conjoined). -/
def finderDupQuery (catalog : List FileRec) (checksum filename : String) :
    List FileRec :=
  catalog.filter (fun r => r.checksum == checksum && r.filename == filename)

/-- `len(records) != 0` — the Finder's duplicate test. -/
def finderIsDuplicate (catalog : List FileRec) (checksum filename : String) :
    Bool :=
  (finderDupQuery catalog checksum filename).length ≠ 0

/-- The duplicate classification the claim describes: a candidate whose
checksum equals a cataloged checksum is a duplicate, whatever its
basename.  Written from the spec's words, for comparison with
`finderIsDuplicate`. -/
def specIsDuplicate (catalog : List FileRec) (checksum : String) : Bool :=
  catalog.any (fun r => r.checksum == checksum)

/-- Which of the two configured actions the Finder dispatches. -/
inductive ActionKind where
  | std
  | alt
deriving DecidableEq, Repr

/-- `action_type` after the duplicate check in `Finder.run`. -/
def finderChooseAction (catalog : List FileRec) (checksum filename : String) :
    ActionKind :=
  if finderIsDuplicate catalog checksum filename then .alt else .std

/-- The ORM object the Finder builds for a novel file:
`File(relpath=…, filename=…, checksum=…)`.  No `size_bytes` argument
appears at the call site, so the attribute is left unset (`none`); the id
is assigned by the database on insert. -/
def finderNewEntry (catalog : List FileRec)
    (relpath filename checksum : String) : FileRec :=
  { id := catalog.length + 1
    relpath := relpath
    filename := filename
    checksum := checksum
    size_bytes := none }

/-- The row the spec says the Finder inserts: the tuple
`(relpath, filename, checksum, size)`.  Written from the spec's words, for
comparison with `finderNewEntry`. -/
def specNewEntry (catalog : List FileRec)
    (relpath filename checksum : String) (size : Nat) : FileRec :=
  { finderNewEntry catalog relpath filename checksum with size_bytes := some size }

/-- One Finder pass over a single candidate, from the duplicate check to
the commit: returns the catalog afterwards, the action branch taken, and
whether the insert committed.  A duplicate stops before the insert; a
novel file is inserted only if the row satisfies the table constraints
(otherwise the commit fails and the catalog is unchanged). -/
def finderProcess (catalog : List FileRec)
    (relpath filename checksum : String) :
    List FileRec × ActionKind × Bool :=
  match finderChooseAction catalog checksum filename with
  | .alt => (catalog, .alt, false)
  | .std =>
      let entry := finderNewEntry catalog relpath filename checksum
      if fileRowOk catalog entry then (catalog ++ [entry], .std, true)
      else (catalog, .std, false)

/-! ### `ingester/ingester.py` — `Ingester._grab`

The SQL pipeline, mirrored subquery by subquery:

    stmt   = SELECT files_id, MAX(start_time) AS last FROM events
             GROUP BY files_id
    recent = SELECT e.files_id, e.status FROM events e JOIN stmt t
             ON e.files_id = t.files_id
             WHERE e.start_time = t.last AND e.status = <file_status>
    query  = SELECT f.* FROM files f JOIN recent u ON f.id = u.files_id
             LIMIT <batch_size>

`file_status` is a configuration string compared against the status
column's wire value.  For each selected record a `PENDING` event is added
and the transaction committed; commit failure clears the result list and
rolls back. -/

/-- The events of one file (`files_id` group). -/
def eventsOf (events : List EventRec) (fid : Nat) : List EventRec :=
  events.filter (fun e => e.files_id == fid)

/-- `MAX(start_time)` over a group of events; `none` for an empty group. -/
def maxStart (l : List EventRec) : Option Nat :=
  (l.map (fun e => e.start_time)).max?

/-- The distinct `files_id` values appearing in the events table (the
`GROUP BY files_id` key set). -/
def eventFids (events : List EventRec) : List Nat :=
  (events.map (fun e => e.files_id)).dedup

/-- The `stmt` subquery: `(files_id, MAX(start_time))` per group. -/
def stmtRows (events : List EventRec) : List (Nat × Nat) :=
  (eventFids events).filterMap (fun fid =>
    (maxStart (eventsOf events fid)).map (fun m => (fid, m)))

/-- The `recent` subquery: `files_id` of every event that attains its
group's maximal `start_time` and whose status has the requested wire
value. -/
def recentRows (events : List EventRec) (s : String) : List Nat :=
  (events.filter (fun e =>
    (stmtRows events).contains (e.files_id, e.start_time)
      && e.status.value == s)).map (fun e => e.files_id)

/-- The final `_grab` query: files joined against `recent` on id, with the
`LIMIT batch_size`. -/
def grabQuery (files : List FileRec) (events : List EventRec)
    (s : String) (batchSize : Nat) : List FileRec :=
  (files.filter (fun f => (recentRows events s).contains f.id)).take batchSize

/-- The selection predicate of the claim: the file's most-recent event
(the event of greatest `start_time` for its `files_id`) has the configured
status.  Written from the claim's words, for comparison with
`grabQuery`. -/
def hasLatestStatus (events : List EventRec) (s : String)
    (f : FileRec) : Bool :=
  (eventsOf events f.id).any (fun e =>
    e.status.value == s
      && (eventsOf events f.id).all (fun e' => e'.start_time ≤ e.start_time))

/-- The catalog state an Ingester works on. -/
structure IngestDB where
  files : List FileRec
  events : List EventRec
deriving DecidableEq, Repr

/-- The `PENDING` event `_grab` appends per selected record. -/
def pendingEvent (now : Nat) (fid : Nat) : EventRec :=
  { files_id := fid
    start_time := now
    status := .PENDING
    duration := none
    ingest_ver := none
    err_message := none }

/-- `Ingester._grab`: run the selection query, append one `PENDING` event
per selected record, and commit.  `commitOk` is the outcome of the
database commit (an external effect); on failure the record list is
cleared and the transaction rolled back, leaving the catalog unchanged. -/
def grab (db : IngestDB) (s : String) (batchSize : Nat) (now : Nat)
    (commitOk : Bool) : List FileRec × IngestDB :=
  let records := grabQuery db.files db.events s batchSize
  if commitOk then
    (records,
     { db with
         events := db.events ++ records.map (fun r => pendingEvent now r.id) })
  else ([], db)

/-! ### `ingester/ingester.py` — reply reaping and `UNKNOWN` synthesis -/

/-- The `Reply` dataclass, as filled in by a worker or by the pre-screen
(the pre-screen always sets `duration = timedelta()`, i.e. zero). -/
structure Reply where
  id : Nat
  version : Option String
  timestamp : Nat
  duration : Nat
  message : Option String
  status : Status
deriving DecidableEq, Repr

/-- The event built from a drained reply in `Ingester.run`. -/
def replyEvent (rep : Reply) : EventRec :=
  { files_id := rep.id
    start_time := rep.timestamp
    status := rep.status
    duration := some rep.duration
    ingest_ver := rep.version
    err_message := rep.message }

/-- End-of-batch event assembly in `Ingester.run`: one event per drained
reply, then, for every id in `known - processed` (selected records that
produced no reply), a synthesized event with
`Event(start_time=now, status=Status.UNKNOWN, files_id=id)` — note the
constructor call passes no `duration`, `ingest_ver` or `err_message`. -/
def reapEvents (records : List FileRec) (replies : List Reply)
    (now : Nat) : List EventRec :=
  let evs := replies.map replyEvent
  let known := (records.map (fun r => r.id)).dedup
  let processed := evs.map (fun e => e.files_id)
  evs ++ (known.filter (fun i => !(processed.contains i))).map (fun i =>
    { files_id := i
      start_time := now
      status := Status.UNKNOWN
      duration := none
      ingest_ver := none
      err_message := none })

/-! ### Filesystem model for `finder/actions.py`

Absolute paths are component lists (root = `[]`); a filesystem is the
finite set of file paths plus the finite set of directory paths. -/

structure FS where
  files : Finset (List String)
  dirs : Finset (List String)
deriving DecidableEq

/-- `p` lies strictly below directory `d`. -/
def strictUnder (d p : List String) : Bool :=
  d.isPrefixOf p && decide (d.length < p.length)

/-- A directory is empty when nothing (file or directory) lies strictly
below it — the condition under which `os.rmdir` succeeds. -/
def FS.emptyDir (fs : FS) (d : List String) : Prop :=
  (∀ p ∈ fs.files, strictUnder d p = false) ∧
    (∀ q ∈ fs.dirs, strictUnder d q = false)

instance (fs : FS) (d : List String) : Decidable (fs.emptyDir d) := by
  unfold FS.emptyDir; infer_instance

/-- `os.makedirs(q, exist_ok=True)`: create `q` and all its ancestors. -/
def makedirs (fs : FS) (q : List String) : FS :=
  { fs with dirs := fs.dirs ∪ q.inits.toFinset }

/-- `shutil.move(old, new)` under rename semantics: requires the source
file to exist, the target's directory to exist, and the target not to be a
directory; an existing target file is overwritten.  `none` models the
`OSError` failure. -/
def moveFile (fs : FS) (old new : List String) : Option FS :=
  if old ∈ fs.files ∧ new.dropLast ∈ fs.dirs ∧ new ∉ fs.dirs then
    some { fs with files := insert new (fs.files.erase old) }
  else none

/-- The ascending loop of `os.removedirs` (fuelled so that it computes by
structural recursion; the chain from `d` to the root has at most
`d.length + 1` steps): keep removing the current directory while it exists
and is empty; the first failure is ignored and stops the walk, as does the
root. -/
def rmChainAux : Nat → FS → List String → FS
  | 0, fs, _ => fs
  | fuel + 1, fs, d =>
    if d = [] then fs
    else if d ∈ fs.dirs ∧ fs.emptyDir d then
      rmChainAux fuel { fs with dirs := fs.dirs.erase d } d.dropLast
    else fs

/-- The parent-directory walk of `os.removedirs`, started at `d`. -/
def rmChain (fs : FS) (d : List String) : FS :=
  rmChainAux (d.length + 1) fs d

/-- `os.removedirs(d)`: remove the leaf directory `d` (failure here
propagates as `OSError`, modelled by `none`), then walk up removing empty
parents. -/
def removedirs (fs : FS) (d : List String) : Option FS :=
  if d ∈ fs.dirs ∧ fs.emptyDir d then
    some (rmChain { fs with dirs := fs.dirs.erase d } d.dropLast)
  else none

/-- `os.remove(p)`: delete a file; `none` models `OSError`. -/
def osRemove (fs : FS) (p : List String) : Option FS :=
  if p ∈ fs.files then some { fs with files := fs.files.erase p } else none

/-! ### `finder/actions.py` — `Delete` -/

/-- `Delete.execute`: `os.remove` inside `try/except OSError`; the error is
only logged, and `_fp` (the action's `path` attribute, here the second
component) is set to `None` only in the `else` branch, i.e. on success.
The function is total: no exception escapes. -/
def deleteExecute (fs : FS) (fp : Option (List String))
    (path : List String) : FS × Option (List String) :=
  match osRemove fs path with
  | some fs' => (fs', none)
  | none => (fs, fp)

/-! ### `finder/actions.py` — `Move` -/

/-- The `src`/`dst` configuration of a `Move` action (both are required to
be existing directories at construction). -/
structure MoveCfg where
  src : List String
  dst : List String
deriving DecidableEq, Repr

/-- The mutable attributes of a `Move` instance: `old`, `new` (both
initialised to `None`) and the inherited `_fp`. -/
structure MoveState where
  old : Option (List String)
  new : Option (List String)
  fp : Option (List String)
deriving DecidableEq, Repr

/-- A `Move` instance right after `__init__`. -/
def moveInit : MoveState := { old := none, new := none, fp := none }

/-- The target path `Move.execute` computes:
`dst ++ relpath(dirname(old), src) ++ [basename(old)]`. -/
def moveTarget (cfg : MoveCfg) (old : List String) : List String :=
  cfg.dst ++ (old.dropLast).drop cfg.src.length ++ [old.getLastD ""]

/-- `Move.execute`: record `old := abspath(path)`; raise `RuntimeError`
(flag `true`) if `old` is not under `src` (the `commonpath` test); else
compute the target, `makedirs` its directory, and `shutil.move`.  An
`OSError` from the move resets `old` and `new` to `None` and re-raises as
`RuntimeError`; on success `_fp` is the new location. -/
def moveExecute (cfg : MoveCfg) (st : MoveState) (fs : FS)
    (path : List String) : MoveState × FS × Bool :=
  if cfg.src.isPrefixOf path then
    match moveFile (makedirs fs (moveTarget cfg path).dropLast) path
        (moveTarget cfg path) with
    | some fs2 =>
        ({ old := some path, new := some (moveTarget cfg path),
           fp := some (moveTarget cfg path) }, fs2, false)
    | none =>
        ({ old := none, new := none, fp := st.fp },
         makedirs fs (moveTarget cfg path).dropLast, true)
  else ({ st with old := some path }, fs, true)

/-- How a call to `Move.undo` ends. -/
inductive UndoOutcome where
  | ok
  | notPerformed
  | moveFail
  | cleanupFail
deriving DecidableEq, Repr

/-- `Move.undo`: raise `RuntimeError` if `old` or `new` is `None`
(`notPerformed`; nothing touched); else move the file back (`moveFail`
keeps `old`/`new`: the raise happens before the cleanup `try/finally`),
then `os.removedirs(dirname(new))` — its `OSError` becomes a
`RuntimeError` (`cleanupFail`) but the `finally` clause still resets
`old`/`new` to `None`. -/
def moveUndo (cfg : MoveCfg) (st : MoveState) (fs : FS) :
    MoveState × FS × UndoOutcome :=
  match st.old, st.new with
  | some old, some new =>
      match moveFile fs new old with
      | none => (st, fs, .moveFail)
      | some fs1 =>
          match removedirs fs1 new.dropLast with
          | some fs2 => ({ old := none, new := none, fp := some old }, fs2, .ok)
          | none =>
              ({ old := none, new := none, fp := some old }, fs1, .cleanupFail)
  | _, _ => (st, fs, .notPerformed)

/-! ### `finder/finder.py` — the commit phase and its failure handler

A database session holds committed rows and rows pending in the open
transaction; a failed commit leaves the transaction aborted (`txAborted`)
and its pending rows in place until `rollback()` clears them — which is
how a SQLAlchemy session must be reset before further use. -/

structure FSession where
  committed : List FileRec
  pending : List FileRec
  txAborted : Bool
deriving DecidableEq, Repr

/-- `session.add(entry)`. -/
def sessionAdd (s : FSession) (e : FileRec) : FSession :=
  { s with pending := s.pending ++ [e] }

/-- `session.commit()`: all pending rows are checked against the table
constraints and flushed atomically; on a violation nothing is written and
the transaction is left aborted. -/
def sessionCommit (s : FSession) : FSession × Bool :=
  if s.pending.all (fun e => fileRowOk s.committed e) then
    ({ committed := s.committed ++ s.pending, pending := [], txAborted := false },
     true)
  else ({ s with txAborted := true }, false)

/-- `session.rollback()`. -/
def sessionRollback (s : FSession) : FSession :=
  { s with pending := [], txAborted := false }

/-- The commit phase of `Finder.run` for a novel file (source lines
166-185): `session.add(entry)`, then `session.commit()`; on an exception
the handler logs and calls `action.undo()` — the source contains no
`session.rollback()` call in this handler. -/
def finderCommitPhase (s : FSession) (entry : FileRec) (cfg : MoveCfg)
    (act : MoveState) (fs : FS) : FSession × MoveState × FS :=
  let s1 := sessionAdd s entry
  match sessionCommit s1 with
  | (s2, true) => (s2, act, fs)
  | (s2, false) =>
      let (act', fs', _) := moveUndo cfg act fs
      (s2, act', fs')

/-- The commit-failure handler the claim describes: roll the transaction
back first, then call `undo()`.  Written from the spec's words, for
comparison with `finderCommitPhase`. -/
def specCommitPhase (s : FSession) (entry : FileRec) (cfg : MoveCfg)
    (act : MoveState) (fs : FS) : FSession × MoveState × FS :=
  let s1 := sessionAdd s entry
  match sessionCommit s1 with
  | (s2, true) => (s2, act, fs)
  | (s2, false) =>
      let s3 := sessionRollback s2
      let (act', fs', _) := moveUndo cfg act fs
      (s3, act', fs')

/-! ### Concrete fixtures used by the counterexamples and witnesses -/

/-- A catalog holding one committed row: `(a/b, x.fits, H1, 42)`. -/
def exCatalog : List FileRec :=
  [{ id := 1, relpath := "a/b", filename := "x.fits", checksum := "H1",
     size_bytes := some 42 }]

/-- A `Move` action configured with `src = /src`, `dst = /dst`. -/
def exCfg : MoveCfg := { src := ["src"], dst := ["dst"] }

/-- A filesystem holding the single file `/src/a/f`, with `/dst` an
existing empty directory. -/
def exFS : FS :=
  { files := {["src", "a", "f"]}
    dirs := {([] : List String), ["src"], ["src", "a"], ["dst"]} }

/-- `Move.execute` immediately followed by `Move.undo`, starting from a
fresh action. -/
def execThenUndo (cfg : MoveCfg) (fs : FS) (path : List String) :
    MoveState × FS × UndoOutcome :=
  let r := moveExecute cfg moveInit fs path
  moveUndo cfg r.1 r.2.1

/-- A single catalog row used in the Ingester fixtures. -/
def exFile1 : FileRec :=
  { id := 1, relpath := "a", filename := "x.fits", checksum := "H1",
    size_bytes := some 42 }

/-- The Finder commit phase run on the scenario: `/src/a/f` has just been
moved to `/dst/a/f`, and its checksum `H1` duplicates the cataloged row,
so the commit fails. -/
def finderCommitScenario : FSession × MoveState × FS :=
  let r := moveExecute exCfg moveInit exFS ["src", "a", "f"]
  finderCommitPhase { committed := exCatalog, pending := [], txAborted := false }
    (finderNewEntry exCatalog "a" "f" "H1") exCfg r.1 r.2.1

/-- The same scenario run through the handler the spec describes
(rollback before undo). -/
def specCommitScenario : FSession × MoveState × FS :=
  let r := moveExecute exCfg moveInit exFS ["src", "a", "f"]
  specCommitPhase { committed := exCatalog, pending := [], txAborted := false }
    (finderNewEntry exCatalog "a" "f" "H1") exCfg r.1 r.2.1

/-! ## Theorems -/

/-- C1: the `Status` enumeration of `status.py` diverges from the claimed
closed set.  It has six members, not nine: `IGNORED`, `INVALID` and
`BACKFILL` do not exist (so the Ingester's pre-screen assignments
`Status.IGNORED` / `Status.INVALID` and the backfill's `Status.BACKFILL`
would raise `AttributeError`), the member named `UNTRIED` carries the wire
string `"NEW"`, not `"UNTRIED"`, and `RERUN` appears only as the wire
value of a member named `REISSUE`. -/
theorem status_enum_divergence :
    Status.value Status.UNTRIED = "NEW"
  ∧ Status.lookupMember "IGNORED" = none
  ∧ Status.lookupMember "INVALID" = none
  ∧ Status.lookupMember "BACKFILL" = none
  ∧ Status.lookupMember "RERUN" = none
  ∧ Status.members.map Status.value
      = ["NEW", "RERUN", "PENDING", "SUCCESS", "FAILURE", "UNKNOWN"] :=
  ⟨rfl, rfl, rfl, rfl, rfl, rfl⟩

/-- C2 (counterexample): a candidate `dup/y.fits` whose checksum `H1`
equals the cataloged checksum but whose basename differs is NOT classified
as a duplicate by the Finder — the duplicate query conjoins the checksum
and filename filters — so it receives the standard action, not the
alternative one, contradicting the claim. -/
theorem finder_dup_hash_only_counterexample :
    specIsDuplicate exCatalog "H1" = true
  ∧ finderIsDuplicate exCatalog "H1" "y.fits" = false
  ∧ finderChooseAction exCatalog "H1" "y.fits" = ActionKind.std
  ∧ (finderProcess exCatalog "dup" "y.fits" "H1").2.1 ≠ ActionKind.alt := by
  decide

/-- C3: the Finder's novel-file insert is missing `size_bytes`.  The ORM
object is built as `File(relpath=…, filename=…, checksum=…)` with no
`size` argument, while `declaratives.py` marks `size_bytes` NOT NULL — so
the commit fails even against an empty catalog and no row with
`size_bytes = 42` can ever be produced; the row the spec describes (with
`size` supplied) would satisfy the constraints. -/
theorem finder_insert_missing_size :
    (finderNewEntry [] "a/b" "x.fits" "H1").size_bytes = none
  ∧ fileRowOk [] (finderNewEntry [] "a/b" "x.fits" "H1") = false
  ∧ finderProcess [] "a/b" "x.fits" "H1" = ([], ActionKind.std, false)
  ∧ (specNewEntry [] "a/b" "x.fits" "H1" 42).size_bytes = some 42
  ∧ fileRowOk [] (specNewEntry [] "a/b" "x.fits" "H1" 42) = true := by
  decide

/-- C5: when the Finder's catalog commit fails, the handler in
`Finder.run` calls `action.undo()` (the file does return to its pre-action
location) but never calls `session.rollback()`: the session is left with
the transaction aborted and the row still pending, unlike the
spec-described handler, which rolls back first. -/
theorem finder_commit_failure_no_rollback :
    finderCommitScenario.1.txAborted = true
  ∧ finderCommitScenario.1.pending = [finderNewEntry exCatalog "a" "f" "H1"]
  ∧ finderCommitScenario.2.2.files = exFS.files
  ∧ specCommitScenario.1.txAborted = false
  ∧ specCommitScenario.1.pending = []
  ∧ specCommitScenario.2.2.files = exFS.files := by
  decide

/-- C7 (counterexample): with override date `D = day 10`, one past day and
one future day, the claim's window `[D-1, D+1]` contains day 11, but
`parse_rsync_logs` computes `[end - timedelta(days=n) for n in
range(timespan+1)]` and never visits any future day. -/
theorem future_days_not_visited :
    visitedDays 10 1 = [10, 9]
  ∧ (11 : Int) ∈ claimedDays 10 1 1
  ∧ (11 : Int) ∉ visitedDays 10 1 := by
  decide

/-- C7 (amended): the manifest strategy visits exactly the inclusive
past-window `[D - timespan, D]` — the single `timespan` knob counts past
days and there is no future-days parameter. -/
theorem visited_days_window (D : Int) (t : Nat) (d : Int) :
    d ∈ visitedDays D t ↔ D - t ≤ d ∧ d ≤ D := by
  unfold visitedDays
  simp only [List.mem_map, List.mem_range]
  constructor
  · rintro ⟨n, hn, rfl⟩
    omega
  · rintro ⟨h1, h2⟩
    refine ⟨(D - d).toNat, by omega, by omega⟩

/-- C9: `Delete.execute` never raises — `os.remove` runs inside
`try/except OSError` and a failure is only logged — and the `path`
attribute (`_fp`) is set to `None` exactly when the removal succeeded,
keeping its previous value otherwise.  The caller therefore observes a
normal return in both cases. -/
theorem delete_execute_never_raises (fs : FS) (fp : Option (List String))
    (path : List String) :
    deleteExecute fs fp path
      = if path ∈ fs.files then ({ fs with files := fs.files.erase path }, none)
        else (fs, fp) := by
  by_cases h : path ∈ fs.files <;> simp [deleteExecute, osRemove, h]

/-- C10 (counterexample): an `execute` that fails its source-location
precondition (the path is not under `src`) does NOT reset the recorded
paths — `self.old = os.path.abspath(path)` has already run when the
`RuntimeError` is raised, so `old` holds the attempted path afterwards,
contradicting the claim's parenthetical that a failed execute resets both
recorded paths to `None`. -/
theorem move_execute_precheck_keeps_old :
    (moveExecute exCfg moveInit exFS ["elsewhere", "f"]).2.2 = true
  ∧ (moveExecute exCfg moveInit exFS ["elsewhere", "f"]).1.old
      = some ["elsewhere", "f"] := by
  decide

/-- C2 (amended): the Finder classifies a file as a duplicate exactly when
some catalog row matches BOTH its checksum and its basename.  When only
the checksum matches, the standard action is chosen and the subsequent
insert aborts (the row violates the table constraints), so the catalog
still gains no second row for that content — but the alternative action is
never applied to such a file. -/
theorem finder_dup_requires_both (catalog : List FileRec)
    (relpath filename checksum : String) :
    (finderChooseAction catalog checksum filename = ActionKind.alt
      ↔ ∃ r ∈ catalog, r.checksum = checksum ∧ r.filename = filename)
  ∧ ((∃ r ∈ catalog, r.checksum = checksum) →
      (finderProcess catalog relpath filename checksum).1 = catalog) := by
  have hdup : finderIsDuplicate catalog checksum filename = true
      ↔ ∃ r ∈ catalog, r.checksum = checksum ∧ r.filename = filename := by
    simp [finderIsDuplicate, finderDupQuery, List.length_eq_zero,
      List.filter_eq_nil_iff]
  constructor
  · rw [← hdup]
    unfold finderChooseAction
    by_cases h : finderIsDuplicate catalog checksum filename <;> simp [h]
  · rintro ⟨r, hr, hc⟩
    unfold finderProcess
    cases hca : finderChooseAction catalog checksum filename with
    | alt => rfl
    | std =>
        have : fileRowOk catalog
            (finderNewEntry catalog relpath filename checksum) = false := by
          simp [fileRowOk, finderNewEntry]
        simp [this]

/-- Witness for `finder_dup_requires_both`: the checksum-only collision of
the counterexample catalog leaves the catalog unchanged. -/
theorem finder_dup_requires_both_witness :
    (finderProcess exCatalog "dup" "y.fits" "H1").1 = exCatalog :=
  (finder_dup_requires_both exCatalog "dup" "y.fits" "H1").2
    ⟨{ id := 1, relpath := "a/b", filename := "x.fits", checksum := "H1",
       size_bytes := some 42 }, by decide, rfl⟩

/-- C10 (amended): whenever no successful `Move.execute` is pending —
formally, `old` or `new` is `None`, which covers a fresh action, the state
after a failed execute (a move `OSError` resets both to `None`; a
not-under-`src` precondition failure records the attempted source but
leaves `new` as it was, i.e. `None` when nothing was pending), and the
state after a completed undo — `Move.undo` raises `RuntimeError` and the
filesystem is untouched. -/
theorem move_undo_guard (cfg : MoveCfg) (st : MoveState) (fs : FS)
    (h : st.old = none ∨ st.new = none) :
    moveUndo cfg st fs = (st, fs, UndoOutcome.notPerformed)
  ∧ (moveInit.old = none ∧ moveInit.new = none)
  ∧ (∀ (st' : MoveState) (fs' : FS) (p : List String), st'.new = none →
      (moveExecute cfg st' fs' p).2.2 = true →
        (moveExecute cfg st' fs' p).1.new = none)
  ∧ (∀ (st' : MoveState) (fs' : FS) (p : List String),
      cfg.src.isPrefixOf p = true →
      moveFile (makedirs fs' (moveTarget cfg p).dropLast) p
          (moveTarget cfg p) = none →
        (moveExecute cfg st' fs' p).1.old = none
          ∧ (moveExecute cfg st' fs' p).1.new = none)
  ∧ (∀ (st' : MoveState) (fs' : FS),
      ((moveUndo cfg st' fs').2.2 = UndoOutcome.ok
        ∨ (moveUndo cfg st' fs').2.2 = UndoOutcome.cleanupFail) →
        (moveUndo cfg st' fs').1.old = none
          ∧ (moveUndo cfg st' fs').1.new = none) := by
  refine ⟨?_, ⟨rfl, rfl⟩, ?_, ?_, ?_⟩
  · obtain ⟨o, n, fp⟩ := st
    rcases h with h | h <;> simp only at h <;> subst h
    · cases n <;> rfl
    · cases o <;> rfl
  · intro st' fs' p hnew hraise
    unfold moveExecute at hraise ⊢
    by_cases hp : cfg.src.isPrefixOf p
    · rw [if_pos hp] at hraise ⊢
      cases hm : moveFile (makedirs fs' (moveTarget cfg p).dropLast) p
          (moveTarget cfg p) with
      | some fs2 => rw [hm] at hraise; simp at hraise
      | none => rfl
    · rw [if_neg hp] at hraise ⊢
      exact hnew
  · intro st' fs' p hp hm
    unfold moveExecute
    rw [if_pos hp, hm]
    exact ⟨rfl, rfl⟩
  · intro st' fs' hout
    obtain ⟨o, n, fp⟩ := st'
    cases o with
    | none => cases n <;> simp [moveUndo] at hout
    | some ov =>
        cases n with
        | none => simp [moveUndo] at hout
        | some nv =>
            unfold moveUndo at hout ⊢
            dsimp only at hout ⊢
            cases hm : moveFile fs' nv ov with
            | none => rw [hm] at hout; simp at hout
            | some fs1 =>
                rw [hm] at hout
                dsimp only at hout ⊢
                cases hr : removedirs fs1 nv.dropLast <;> exact ⟨rfl, rfl⟩

/-- Witness for `move_undo_guard`: a fresh `Move` action refuses to undo
and leaves the example filesystem untouched. -/
theorem move_undo_guard_witness :
    moveUndo exCfg moveInit exFS = (moveInit, exFS, UndoOutcome.notPerformed) :=
  (move_undo_guard exCfg moveInit exFS (Or.inl rfl)).1

/-! Supporting lemmas for the `_grab` characterization. -/

theorem maxStart_spec (l : List EventRec) (m : Nat) :
    maxStart l = some m ↔
      (∃ e ∈ l, e.start_time = m) ∧ ∀ e ∈ l, e.start_time ≤ m := by
  unfold maxStart
  rw [List.max?_eq_some_iff (fun _ => Nat.le_refl _) (fun a b => max_choice a b)
    (fun _ _ _ => Nat.max_le)]
  constructor
  · rintro ⟨hmem, hub⟩
    obtain ⟨e, he, heq⟩ := List.mem_map.mp hmem
    exact ⟨⟨e, he, heq⟩, fun e' he' => hub _ (List.mem_map_of_mem _ he')⟩
  · rintro ⟨⟨e, he, heq⟩, hub⟩
    refine ⟨List.mem_map.mpr ⟨e, he, heq⟩, ?_⟩
    intro b hb
    obtain ⟨e', he', rfl⟩ := List.mem_map.mp hb
    exact hub e' he'

theorem mem_eventsOf (events : List EventRec) (fid : Nat) (e : EventRec) :
    e ∈ eventsOf events fid ↔ e ∈ events ∧ e.files_id = fid := by
  simp [eventsOf]

theorem mem_eventFids (events : List EventRec) (fid : Nat) :
    fid ∈ eventFids events ↔ ∃ e ∈ events, e.files_id = fid := by
  simp [eventFids, List.mem_dedup, List.mem_map]

theorem mem_stmtRows (events : List EventRec) (fid m : Nat) :
    (fid, m) ∈ stmtRows events ↔
      fid ∈ eventFids events ∧ maxStart (eventsOf events fid) = some m := by
  unfold stmtRows
  rw [List.mem_filterMap]
  constructor
  · rintro ⟨x, hx, hopt⟩
    rw [Option.map_eq_some'] at hopt
    obtain ⟨a, ha, heq⟩ := hopt
    obtain ⟨rfl, rfl⟩ := Prod.mk.injEq .. |>.mp heq
    exact ⟨hx, ha⟩
  · rintro ⟨h1, h2⟩
    exact ⟨fid, h1, by rw [h2]; rfl⟩

theorem mem_recentRows (events : List EventRec) (s : String) (fid : Nat) :
    fid ∈ recentRows events s ↔
      ∃ e ∈ events, e.files_id = fid ∧ e.status.value = s ∧
        ∀ e' ∈ eventsOf events fid, e'.start_time ≤ e.start_time := by
  unfold recentRows
  rw [List.mem_map]
  constructor
  · rintro ⟨e, hmem, rfl⟩
    obtain ⟨he, hcond⟩ := List.mem_filter.mp hmem
    obtain ⟨hc1, hc2⟩ := Bool.and_eq_true .. |>.mp hcond
    have hmm : (e.files_id, e.start_time) ∈ stmtRows events :=
      List.elem_iff.mp hc1
    rw [mem_stmtRows] at hmm
    have hmax := (maxStart_spec _ _).mp hmm.2
    exact ⟨e, he, rfl, by simpa using hc2, hmax.2⟩
  · rintro ⟨e, he, rfl, hs, hub⟩
    refine ⟨e, List.mem_filter.mpr ⟨he, ?_⟩, rfl⟩
    rw [Bool.and_eq_true]
    refine ⟨List.elem_iff.mpr ?_, by simpa using hs⟩
    rw [mem_stmtRows]
    refine ⟨(mem_eventFids events e.files_id).mpr ⟨e, he, rfl⟩, ?_⟩
    exact (maxStart_spec _ _).mpr
      ⟨⟨e, (mem_eventsOf events e.files_id e).mpr ⟨he, rfl⟩, rfl⟩, hub⟩

theorem hasLatestStatus_spec (events : List EventRec) (s : String)
    (f : FileRec) :
    hasLatestStatus events s f = true ↔
      ∃ e ∈ events, e.files_id = f.id ∧ e.status.value = s ∧
        ∀ e' ∈ eventsOf events f.id, e'.start_time ≤ e.start_time := by
  unfold hasLatestStatus
  rw [List.any_eq_true]
  constructor
  · rintro ⟨e, he, hcond⟩
    obtain ⟨h1, h2⟩ := Bool.and_eq_true .. |>.mp hcond
    rw [List.all_eq_true] at h2
    obtain ⟨hee, hef⟩ := (mem_eventsOf events f.id e).mp he
    exact ⟨e, hee, hef, by simpa using h1,
      fun e' he' => by simpa using h2 e' he'⟩
  · rintro ⟨e, hee, hef, hs, hub⟩
    refine ⟨e, (mem_eventsOf events f.id e).mpr ⟨hee, hef⟩, ?_⟩
    rw [Bool.and_eq_true]
    exact ⟨by simpa using hs,
      List.all_eq_true.mpr (fun e' he' => by simpa using hub e' he')⟩

theorem recent_eq_hasLatest (events : List EventRec) (s : String)
    (f : FileRec) :
    (recentRows events s).contains f.id = hasLatestStatus events s f := by
  rw [Bool.eq_iff_iff, hasLatestStatus_spec]
  constructor
  · intro h
    exact (mem_recentRows events s f.id).mp (List.elem_iff.mp h)
  · intro h
    exact List.elem_iff.mpr ((mem_recentRows events s f.id).mpr h)

theorem grabQuery_spec (files : List FileRec) (events : List EventRec)
    (s : String) (b : Nat) :
    grabQuery files events s b
      = (files.filter (hasLatestStatus events s)).take b := by
  unfold grabQuery
  congr 1
  apply List.filter_congr
  intro f _
  exact recent_eq_hasLatest events s f

/-- C4: `_grab` returns exactly the files whose most-recent event (the
event of greatest `start_time` for that `files_id`) has the configured
`file_status`, capped at `batch_size`; in the same transaction it appends
one `PENDING` event per returned file, and if the commit fails the
transaction is rolled back — the catalog is unchanged — and the empty
list is returned. -/
theorem grab_latest_wins (db : IngestDB) (s : String) (batch now : Nat) :
    (grab db s batch now true).1
        = (db.files.filter (hasLatestStatus db.events s)).take batch
  ∧ (grab db s batch now true).1.length ≤ batch
  ∧ (grab db s batch now true).2.files = db.files
  ∧ (grab db s batch now true).2.events
        = db.events
            ++ (grab db s batch now true).1.map (fun r => pendingEvent now r.id)
  ∧ grab db s batch now false = ([], db) := by
  have h := grabQuery_spec db.files db.events s batch
  refine ⟨by simpa [grab] using h, ?_, rfl, rfl, rfl⟩
  show (grabQuery db.files db.events s batch).length ≤ batch
  rw [h]
  exact List.length_take_le batch _

/-- C6 (counterexample): a one-file batch that produced no replies gets
exactly one synthesized `UNKNOWN` event — but its `duration` is NULL (the
`Event` constructor call passes no `duration`), not zero: the claim's
"its duration is zero" fails. -/
theorem unknown_duration_counterexample :
    reapEvents [exFile1] [] 7
      = [{ files_id := 1, start_time := 7, status := Status.UNKNOWN,
           duration := none, ingest_ver := none, err_message := none }]
  ∧ (reapEvents [exFile1] [] 7).map (fun e => e.duration) ≠ [some 0] := by
  decide

/-- On a list without duplicates, filtering for a present element `a`
(conjoined with any test `Q` that holds at `a`) leaves exactly `[a]`. -/
theorem nodup_filter_and_singleton {l : List Nat} (h : l.Nodup) {a : Nat}
    (ha : a ∈ l) {Q : Nat → Bool} (hQ : Q a = true) :
    l.filter (fun x => (x == a) && Q x) = [a] := by
  induction l with
  | nil => cases ha
  | cons b t ih =>
    obtain ⟨hb, ht⟩ := List.nodup_cons.mp h
    rcases List.mem_cons.mp ha with rfl | hmem
    · have hc : ((a == a) && Q a) = true := by simp [hQ]
      rw [List.filter_cons, if_pos hc]
      have ht0 : t.filter (fun x => (x == a) && Q x) = [] := by
        rw [List.filter_eq_nil_iff]
        intro x hx
        simp only [Bool.and_eq_true, beq_iff_eq, not_and]
        rintro rfl
        exact absurd hx hb
      rw [ht0]
    · have hba : b ≠ a := fun hba => hb (hba ▸ hmem)
      have hc : ((b == a) && Q b) = false := by simp [hba]
      rw [List.filter_cons, if_neg (by simp [hc])]
      exact ih ht hmem

/-- C6 (amended): at the end of a batch, every selected file that produced
no reply receives exactly one synthesized event, with status `UNKNOWN` and
NULL `duration` (the zero duration applies to the pre-screen `Reply`
messages, not to these events). -/
theorem unknown_event_synthesis (records : List FileRec) (replies : List Reply)
    (now : Nat) (f : FileRec) (hf : f ∈ records)
    (hnorep : ∀ rep ∈ replies, rep.id ≠ f.id) :
    (reapEvents records replies now).filter (fun e => e.files_id == f.id)
      = [{ files_id := f.id, start_time := now, status := Status.UNKNOWN,
           duration := none, ingest_ver := none, err_message := none }] := by
  unfold reapEvents
  rw [List.filter_append]
  have h1 : (replies.map replyEvent).filter (fun e => e.files_id == f.id)
      = [] := by
    rw [List.filter_eq_nil_iff]
    intro e he
    obtain ⟨rep, hrep, rfl⟩ := List.mem_map.mp he
    simpa [replyEvent] using hnorep rep hrep
  rw [h1, List.nil_append]
  rw [List.filter_map]
  have h2 : ((records.map (fun r => r.id)).dedup.filter
        (fun i => !((replies.map replyEvent).map (fun e => e.files_id)).contains i)).filter
          ((fun e : EventRec => e.files_id == f.id) ∘ fun i =>
            ({ files_id := i, start_time := now, status := Status.UNKNOWN,
               duration := none, ingest_ver := none, err_message := none } : EventRec))
      = [f.id] := by
    rw [List.filter_filter]
    apply nodup_filter_and_singleton (List.nodup_dedup _)
    · exact List.mem_dedup.mpr (List.mem_map_of_mem _ hf)
    · rw [Bool.not_eq_true']
      rw [← Bool.not_eq_true]
      intro hc
      obtain ⟨e, he, hid⟩ := List.mem_map.mp (List.elem_iff.mp hc)
      obtain ⟨rep, hrep, rfl⟩ := List.mem_map.mp he
      exact hnorep rep hrep (by simpa [replyEvent] using hid)
  rw [h2]
  rfl

/-- Witness for `unknown_event_synthesis`: the one-file, no-replies batch
yields the single NULL-duration `UNKNOWN` event. -/
theorem unknown_event_synthesis_witness :
    (reapEvents [exFile1] [] 7).filter (fun e => e.files_id == exFile1.id)
      = [{ files_id := exFile1.id, start_time := 7, status := Status.UNKNOWN,
           duration := none, ingest_ver := none, err_message := none }] :=
  unknown_event_synthesis [exFile1] [] 7 exFile1 (by decide)
    (fun rep h => absurd h (List.not_mem_nil rep))

/-- C8 (counterexample): moving `/src/a/f` into storage and undoing it
restores the file, but `undo`'s directory cleanup climbs past the
directories `execute` created and deletes the pre-existing (now empty)
`dst` directory itself — the composition is not the identity on the
filesystem. -/
theorem move_not_fs_identity :
    (execThenUndo exCfg exFS ["src", "a", "f"]).2.1.files = exFS.files
  ∧ (execThenUndo exCfg exFS ["src", "a", "f"]).2.2 = UndoOutcome.ok
  ∧ ["dst"] ∈ exFS.dirs
  ∧ ["dst"] ∉ (execThenUndo exCfg exFS ["src", "a", "f"]).2.1.dirs
  ∧ (execThenUndo exCfg exFS ["src", "a", "f"]).2.1 ≠ exFS := by
  decide

/-! Supporting lemmas for the amended move-reversibility statement. -/

theorem rmChainAux_files (n : Nat) (fs : FS) (d : List String) :
    (rmChainAux n fs d).files = fs.files := by
  induction n generalizing fs d with
  | zero => rfl
  | succ k ih =>
    simp only [rmChainAux]
    split_ifs
    · rfl
    · exact ih _ _
    · rfl

theorem rmChainAux_dirs_subset (n : Nat) (fs : FS) (d : List String) :
    (rmChainAux n fs d).dirs ⊆ fs.dirs := by
  induction n generalizing fs d with
  | zero => exact Finset.Subset.refl _
  | succ k ih =>
    simp only [rmChainAux]
    split_ifs
    · exact Finset.Subset.refl _
    · exact Finset.Subset.trans (ih _ _) (Finset.erase_subset _ _)
    · exact Finset.Subset.refl _

theorem removedirs_files {fs : FS} {d : List String} {fs' : FS}
    (h : removedirs fs d = some fs') : fs'.files = fs.files := by
  unfold removedirs at h
  split_ifs at h
  · cases h
    exact rmChainAux_files _ _ _

theorem removedirs_dirs_subset {fs : FS} {d : List String} {fs' : FS}
    (h : removedirs fs d = some fs') : fs'.dirs ⊆ fs.dirs := by
  unfold removedirs at h
  split_ifs at h
  · cases h
    exact Finset.Subset.trans (rmChainAux_dirs_subset _ _ _)
      (Finset.erase_subset _ _)

theorem self_mem_inits (l : List String) : l ∈ l.inits :=
  (List.mem_inits l l).mpr (List.prefix_refl l)

theorem not_mem_inits_dropLast (l : List String) (h : l ≠ []) :
    l ∉ l.dropLast.inits := by
  intro hmem
  have hle := ((List.mem_inits l l.dropLast).mp hmem).length_le
  have hdl : l.dropLast.length = l.length - 1 := List.length_dropLast l
  have hpos : 0 < l.length := List.length_pos.mpr h
  omega

theorem moveTarget_ne_nil (cfg : MoveCfg) (path : List String) :
    moveTarget cfg path ≠ [] := by
  simp [moveTarget]

/-- C8 (amended): for a file under `src` (with a free target), `execute`
followed by `undo` restores the files component of the filesystem exactly
and clears the action state, and every directory still present afterwards
already existed or lies on the chain `makedirs` created; the composition
is NOT the identity on directories — `undo`'s `os.removedirs` walk also
removes pre-existing directories that became empty, `dst` included (see
the counterexample). -/
theorem move_execute_then_undo (cfg : MoveCfg) (fs : FS) (path : List String)
    (hfile : path ∈ fs.files)
    (hsrc : cfg.src.isPrefixOf path = true)
    (hnf : moveTarget cfg path ∉ fs.files)
    (hnd : moveTarget cfg path ∉ fs.dirs)
    (hop : path.dropLast ∈ fs.dirs)
    (hod : path ∉ fs.dirs)
    (hoi : path ∉ (moveTarget cfg path).dropLast.inits) :
    (moveExecute cfg moveInit fs path).2.2 = false
  ∧ (execThenUndo cfg fs path).2.1.files = fs.files
  ∧ (execThenUndo cfg fs path).1.old = none
  ∧ (execThenUndo cfg fs path).1.new = none
  ∧ (execThenUndo cfg fs path).2.1.dirs
      ⊆ fs.dirs ∪ (moveTarget cfg path).dropLast.inits.toFinset := by
  have hcond2 : (moveTarget cfg path).dropLast
      ∈ (makedirs fs (moveTarget cfg path).dropLast).dirs :=
    Finset.mem_union_right _ (List.mem_toFinset.mpr (self_mem_inits _))
  have hcond3 : moveTarget cfg path
      ∉ (makedirs fs (moveTarget cfg path).dropLast).dirs := by
    refine fun hmem => ?_
    rcases Finset.mem_union.mp hmem with h | h
    · exact hnd h
    · exact not_mem_inits_dropLast _ (moveTarget_ne_nil cfg path)
        (List.mem_toFinset.mp h)
  have hmv1 : moveFile (makedirs fs (moveTarget cfg path).dropLast) path
        (moveTarget cfg path)
      = some { files := insert (moveTarget cfg path) (fs.files.erase path),
               dirs := fs.dirs
                 ∪ (moveTarget cfg path).dropLast.inits.toFinset } := by
    unfold moveFile
    rw [if_pos ⟨hfile, hcond2, hcond3⟩]
    rfl
  have hexec : moveExecute cfg moveInit fs path
      = ({ old := some path, new := some (moveTarget cfg path),
           fp := some (moveTarget cfg path) },
         { files := insert (moveTarget cfg path) (fs.files.erase path),
           dirs := fs.dirs ∪ (moveTarget cfg path).dropLast.inits.toFinset },
         false) := by
    unfold moveExecute
    rw [if_pos hsrc, hmv1]
  have hucond3 : path
      ∉ (fs.dirs ∪ (moveTarget cfg path).dropLast.inits.toFinset) := by
    refine fun hmem => ?_
    rcases Finset.mem_union.mp hmem with h | h
    · exact hod h
    · exact hoi (List.mem_toFinset.mp h)
  have hfiles3 :
      insert path
          ((insert (moveTarget cfg path) (fs.files.erase path)).erase
            (moveTarget cfg path))
        = fs.files := by
    rw [Finset.erase_insert
      (fun hmem => hnf (Finset.mem_of_mem_erase hmem)),
      Finset.insert_erase hfile]
  have hmv2 : moveFile
        { files := insert (moveTarget cfg path) (fs.files.erase path),
          dirs := fs.dirs ∪ (moveTarget cfg path).dropLast.inits.toFinset }
        (moveTarget cfg path) path
      = some { files := fs.files,
               dirs := fs.dirs
                 ∪ (moveTarget cfg path).dropLast.inits.toFinset } := by
    unfold moveFile
    rw [if_pos ⟨Finset.mem_insert_self _ _, Finset.mem_union_left _ hop,
      hucond3⟩]
    rw [Option.some.injEq, FS.mk.injEq]
    exact ⟨hfiles3, rfl⟩
  have hstep : execThenUndo cfg fs path
      = moveUndo cfg
          { old := some path, new := some (moveTarget cfg path),
            fp := some (moveTarget cfg path) }
          { files := insert (moveTarget cfg path) (fs.files.erase path),
            dirs := fs.dirs
              ∪ (moveTarget cfg path).dropLast.inits.toFinset } := by
    unfold execThenUndo
    rw [hexec]
  cases hrm : removedirs
      { files := fs.files,
        dirs := fs.dirs ∪ (moveTarget cfg path).dropLast.inits.toFinset }
      (moveTarget cfg path).dropLast with
  | some fs4 =>
      have hundo : execThenUndo cfg fs path
          = ({ old := none, new := none, fp := some path }, fs4,
             UndoOutcome.ok) := by
        rw [hstep]
        unfold moveUndo
        dsimp only
        rw [hmv2]
        dsimp only
        rw [hrm]
      have h4 := removedirs_files hrm
      have h5 := removedirs_dirs_subset hrm
      refine ⟨by rw [hexec], ?_, by rw [hundo], by rw [hundo], ?_⟩
      · rw [hundo]
        exact h4
      · rw [hundo]
        exact h5
  | none =>
      have hundo : execThenUndo cfg fs path
          = ({ old := none, new := none, fp := some path },
             { files := fs.files,
               dirs := fs.dirs
                 ∪ (moveTarget cfg path).dropLast.inits.toFinset },
             UndoOutcome.cleanupFail) := by
        rw [hstep]
        unfold moveUndo
        dsimp only
        rw [hmv2]
        dsimp only
        rw [hrm]
      refine ⟨by rw [hexec], by rw [hundo], by rw [hundo], by rw [hundo], ?_⟩
      rw [hundo]

/-- Witness for `move_execute_then_undo`: the counterexample scenario
satisfies every hypothesis, and execute-then-undo restores its files. -/
theorem move_execute_then_undo_witness :
    (execThenUndo exCfg exFS ["src", "a", "f"]).2.1.files = exFS.files :=
  (move_execute_then_undo exCfg exFS ["src", "a", "f"] (by decide) (by decide)
    (by decide) (by decide) (by decide) (by decide) (by decide)).2.1
